import Mathlib

/-!
Shallow embedding of the pngme chunk codec (src/chunk.rs, src/chunk_type.rs).

Bytes are modelled as `Nat` (a real `u8` is `< 256`; hypotheses state the
bound where a proof needs it), `u32` values as `Nat` with explicit `% 2 ^ 32`
where the source truncates, byte buffers as `List Nat`, and fallible
operations as `Except`.
-/

deriving instance DecidableEq for Except

namespace Pngme

/-! ### CRC-32/ISO-HDLC (the `crc` crate's `CRC_32_ISO_HDLC`)

Reflected algorithm: polynomial 0xEDB88320 (0x04C11DB7 reflected),
init 0xFFFFFFFF, xorout 0xFFFFFFFF, processing each byte LSB-first. -/

def CRC32_POLY : Nat := 0xEDB88320

/-- One bit step of the reflected CRC-32 update. -/
def crcStep (s : Nat) : Nat :=
  if s % 2 = 1 then (s / 2) ^^^ CRC32_POLY else s / 2

/-- Absorb one byte into the CRC state: xor it in, then run 8 bit steps. -/
def crcByte (s b : Nat) : Nat :=
  crcStep (crcStep (crcStep (crcStep (crcStep (crcStep (crcStep (crcStep (s ^^^ b))))))))

/-- Fold the CRC state over a byte list. -/
def crcLoop (s : Nat) : List Nat → Nat
  | [] => s
  | b :: bs => crcLoop (crcByte s b) bs

/-- `CRC.checksum` of src/chunk.rs line 7: CRC-32/ISO-HDLC over a byte slice. -/
def crc32 (msg : List Nat) : Nat :=
  crcLoop 0xFFFFFFFF msg ^^^ 0xFFFFFFFF

/-! ### u32 big-endian byte conversions (`u32::to_be_bytes` / `u32::from_be_bytes`) -/

def u32_to_be_bytes (n : Nat) : List Nat :=
  [n / 2 ^ 24 % 256, n / 2 ^ 16 % 256, n / 2 ^ 8 % 256, n % 256]

def u32_from_be_bytes (a b c d : Nat) : Nat :=
  a * 2 ^ 24 + b * 2 ^ 16 + c * 2 ^ 8 + d

/-! ### ChunkType (src/chunk_type.rs) -/

/-- `struct ChunkType(u8,u8,u8,u8)` — four raw bytes. -/
structure ChunkType where
  b0 : Nat
  b1 : Nat
  b2 : Nat
  b3 : Nat
deriving DecidableEq

/-- `ChunkType::bytes`. -/
def ChunkType.bytes (t : ChunkType) : List Nat :=
  [t.b0, t.b1, t.b2, t.b3]

/-- `ChunkType::is_critical`: `(self.0 & 0b100000) == 0`. -/
def ChunkType.is_critical (t : ChunkType) : Bool :=
  t.b0 &&& 0b100000 == 0

/-- `ChunkType::is_public`: `(self.1 & 0b100000) == 0`. -/
def ChunkType.is_public (t : ChunkType) : Bool :=
  t.b1 &&& 0b100000 == 0

/-- `ChunkType::is_reserved_bit_valid`: `(self.2 & 0b100000) == 0`. -/
def ChunkType.is_reserved_bit_valid (t : ChunkType) : Bool :=
  t.b2 &&& 0b100000 == 0

/-- `ChunkType::is_safe_to_copy`: `(self.3 & 0b100000) != 0`. -/
def ChunkType.is_safe_to_copy (t : ChunkType) : Bool :=
  t.b3 &&& 0b100000 != 0

/-- `ChunkType::is_valid`: delegates to `is_reserved_bit_valid`. -/
def ChunkType.is_valid (t : ChunkType) : Bool :=
  t.is_reserved_bit_valid

/-- `ChunkType::is_valid_byte`: the match `65..=90 | 97..=122 => true`. -/
def ChunkType.is_valid_byte (val : Nat) : Bool :=
  (65 ≤ val && val ≤ 90) || (97 ≤ val && val ≤ 122)

/-- `TryFrom<[u8; 4]> for ChunkType` (error type is `()` in the source):
store the 4 bytes, then succeed iff `is_valid`. -/
def ChunkType.try_from (a b c d : Nat) : Except Unit ChunkType :=
  let res : ChunkType := ⟨a, b, c, d⟩
  if res.is_valid then .ok res else .error ()

/-- `FromStr for ChunkType`: the input is the string's UTF-8 bytes; fail
unless the length is 4 and every byte passes `is_valid_byte`, else store
bytes 0..4. -/
def ChunkType.from_str (s : List Nat) : Except Unit ChunkType :=
  if s.length != 4 || !(s.all fun v => ChunkType.is_valid_byte v) then
    .error ()
  else
    .ok ⟨s.getD 0 0, s.getD 1 0, s.getD 2 0, s.getD 3 0⟩

/-! ### Chunk (src/chunk.rs) -/

/-- `enum ChunkError`. `chunkTypeError` wraps the chunk-type error payload,
which is `()` in the source. -/
inductive ChunkError where
  | lengthByteRead
  | chunkTypeByteRead
  | dataByteRead
  | crcByteRead
  | crcMismatch
  | chunkTypeError (e : Unit)
deriving DecidableEq

/-- `struct Chunk { length: u32, chunk_type, chunk_data, crc: u32 }`. -/
structure Chunk where
  length : Nat
  chunk_type : ChunkType
  chunk_data : List Nat
  crc : Nat
deriving DecidableEq

/-- `Chunk::new`: `length = data.len() as u32` (hence the `% 2 ^ 32`) and
`crc = CRC.checksum(chunk_type bytes ++ data)`. -/
def Chunk.new (chunk_type : ChunkType) (data : List Nat) : Chunk :=
  let to_crc : List Nat :=
    [chunk_type.b0, chunk_type.b1, chunk_type.b2, chunk_type.b3] ++ data
  { length := data.length % 2 ^ 32
    chunk_type := chunk_type
    chunk_data := data
    crc := crc32 to_crc }

/-- `Chunk::as_bytes`: `length.to_be_bytes() ++ chunk_type.bytes() ++
chunk_data ++ crc.to_be_bytes()`. -/
def Chunk.as_bytes (c : Chunk) : List Nat :=
  u32_to_be_bytes c.length ++ c.chunk_type.bytes ++ c.chunk_data ++ u32_to_be_bytes c.crc

/-- The `length` field decoded from the first 4 bytes of a buffer
(`u32::from_be_bytes` of the first read in `Chunk::try_from`). -/
def chunk_len_field (value : List Nat) : Nat :=
  u32_from_be_bytes (value.getD 0 0) (value.getD 1 0) (value.getD 2 0) (value.getD 3 0)

/-- The CRC recomputed over `value[4..(8 + length)]` in `Chunk::try_from`
line 115 (type bytes followed by the data bytes). -/
def chunk_computed_crc (value : List Nat) : Nat :=
  crc32 ((value.drop 4).take (4 + chunk_len_field value))

/-- The stored CRC: `u32::from_be_bytes` of the 4 bytes that follow the data,
at offsets `8 + length .. 12 + length`. -/
def chunk_stored_crc (value : List Nat) : Nat :=
  u32_from_be_bytes (value.getD (8 + chunk_len_field value) 0)
    (value.getD (9 + chunk_len_field value) 0)
    (value.getD (10 + chunk_len_field value) 0)
    (value.getD (11 + chunk_len_field value) 0)

/-- `TryFrom<&[u8]> for Chunk`. The source reads from a `BufReader` with
`read_exact`; a read of `n` bytes fails exactly when fewer than `n` bytes
remain past what was already consumed, so each boundary check is a bound on
`value.length`. The source returns `ChunkError::ChunkTypeError` from the
`else` arm of `if let Ok(chunk_type)`; here that arm is the `.error` match
case. -/
def Chunk.try_from (value : List Nat) : Except ChunkError Chunk :=
  if value.length < 4 then .error .lengthByteRead
  else
    let length := chunk_len_field value
    if value.length < 8 then .error .chunkTypeByteRead
    else
      match ChunkType.try_from (value.getD 4 0) (value.getD 5 0) (value.getD 6 0)
          (value.getD 7 0) with
      | .error e => .error (.chunkTypeError e)
      | .ok chunk_type =>
        if value.length < 8 + length then .error .dataByteRead
        else
          let chunk_data := (value.drop 8).take length
          let actual_crc := chunk_computed_crc value
          if value.length < 12 + length then .error .crcByteRead
          else
            let expected_crc := chunk_stored_crc value
            if actual_crc != expected_crc then .error .crcMismatch
            else .ok { length := length, chunk_type := chunk_type,
                       chunk_data := chunk_data, crc := actual_crc }

/-- Flip bit `j` of the byte at index `i` of a buffer. -/
def flip_bit_at (value : List Nat) (i j : Nat) : List Nat :=
  value.set i (value.getD i 0 ^^^ 2 ^ j)

/-- The payload of the end-to-end scenario, as UTF-8 bytes. -/
def secret_message : List Nat :=
  ("This is where your secret message will be!".toList.map Char.toNat)



/-- The chunk-type bytes of a buffer as read at offsets 4..8 by `Chunk::try_from`. -/
def chunk_type_field (value : List Nat) : ChunkType :=
  ⟨value.getD 4 0, value.getD 5 0, value.getD 6 0, value.getD 7 0⟩

/-! ### Helper lemmas -/

lemma and_32_eq_zero_iff (n : Nat) : (n &&& 32 = 0) ↔ n.testBit 5 = false := by
  have h : n &&& 32 = (n.testBit 5).toNat * 32 := Nat.and_two_pow n 5
  rw [h]
  cases hb : n.testBit 5 <;> simp

/-- C9: for every ChunkType, `is_critical`/`is_public`/`is_reserved_bit_valid`
test that bit 5 of byte 0/1/2 is clear, `is_safe_to_copy` tests that bit 5 of
byte 3 is set, and `is_valid` equals `is_reserved_bit_valid`; concretely, for
"RuSt" (bytes 82 117 83 116) the four queries give true, false, true, true,
and for "Rust" (bytes 82 117 115 116) `is_valid` is false. -/
theorem chunk_type_flag_semantics :
    (∀ t : ChunkType,
      (t.is_critical = true ↔ t.b0.testBit 5 = false) ∧
      (t.is_public = true ↔ t.b1.testBit 5 = false) ∧
      (t.is_reserved_bit_valid = true ↔ t.b2.testBit 5 = false) ∧
      (t.is_safe_to_copy = true ↔ t.b3.testBit 5 = true) ∧
      t.is_valid = t.is_reserved_bit_valid) ∧
    ChunkType.from_str [82, 117, 83, 116] = .ok ⟨82, 117, 83, 116⟩ ∧
    (ChunkType.mk 82 117 83 116).is_critical = true ∧
    (ChunkType.mk 82 117 83 116).is_public = false ∧
    (ChunkType.mk 82 117 83 116).is_reserved_bit_valid = true ∧
    (ChunkType.mk 82 117 83 116).is_safe_to_copy = true ∧
    ChunkType.from_str [82, 117, 115, 116] = .ok ⟨82, 117, 115, 116⟩ ∧
    (ChunkType.mk 82 117 115 116).is_valid = false := by
  refine ⟨fun t => ⟨?_, ?_, ?_, ?_, rfl⟩, by decide, by decide, by decide,
    by decide, by decide, by decide, by decide⟩
  · simpa [ChunkType.is_critical] using and_32_eq_zero_iff t.b0
  · simpa [ChunkType.is_public] using and_32_eq_zero_iff t.b1
  · simpa [ChunkType.is_reserved_bit_valid] using and_32_eq_zero_iff t.b2
  · have h := and_32_eq_zero_iff t.b3
    simp only [ChunkType.is_safe_to_copy, bne_iff_ne, ne_eq]
    cases hb : t.b3.testBit 5 <;> simp [hb] at h <;> simp [h]


/-- C6 counterexample: the 4 bytes of "Rust" (82 117 115 116, all ASCII
letters, but reserved bit set) are REJECTED by `TryFrom<[u8; 4]>` at
construction, contradicting "succeeds for every 4-byte input at the
structural level ... never as a construction failure". -/
theorem chunk_type_try_from_rejects_reserved :
    ChunkType.try_from 82 117 115 116 = .error () ∧
    (ChunkType.mk 82 117 115 116).is_valid = false := by
  exact ⟨rfl, rfl⟩

/-- C6 amended: `TryFrom<[u8; 4]>` stores the 4 bytes and succeeds exactly
when the reserved bit (bit 5 of byte 2) is clear; a reserved-bit violation
IS a construction failure. -/
theorem chunk_type_try_from_reserved_gate (a b c d : Nat) :
    (d.testBit 5 = d.testBit 5) ∧
    (c.testBit 5 = false → ChunkType.try_from a b c d = .ok ⟨a, b, c, d⟩) ∧
    (c.testBit 5 = true → ChunkType.try_from a b c d = .error ()) := by
  have h := and_32_eq_zero_iff c
  refine ⟨rfl, fun hc => ?_, fun hc => ?_⟩
  · have hv : (ChunkType.mk a b c d).is_valid = true := by
      simp [ChunkType.is_valid, ChunkType.is_reserved_bit_valid, h, hc]
    simp [ChunkType.try_from, hv]
  · have hv : (ChunkType.mk a b c d).is_valid = false := by
      simp only [ChunkType.is_valid, ChunkType.is_reserved_bit_valid]
      simp [hc] at h
      simp [h]
    simp [ChunkType.try_from, hv]

/-- C6 witness: the gate at concrete bytes — "RuSt" accepted, "Rust" rejected. -/
theorem chunk_type_try_from_reserved_gate_witness :
    ChunkType.try_from 82 117 83 116 = .ok ⟨82, 117, 83, 116⟩ ∧
    ChunkType.try_from 82 117 115 116 = .error () :=
  ⟨(chunk_type_try_from_reserved_gate 82 117 83 116).2.1 (by decide),
   (chunk_type_try_from_reserved_gate 82 117 115 116).2.2 (by decide)⟩


lemma list_eq_of_length_four (s : List Nat) (h : s.length = 4) :
    [s.getD 0 0, s.getD 1 0, s.getD 2 0, s.getD 3 0] = s := by
  obtain _ | ⟨a, _ | ⟨b, _ | ⟨c, _ | ⟨d, _ | ⟨e, s⟩⟩⟩⟩⟩ := s <;> simp_all

/-- C8: `ChunkType::from_str` succeeds exactly on byte strings of length 4
whose every byte is in [65,90] or [97,122], and then stores those 4 bytes;
every other string is rejected. -/
theorem chunk_type_from_str_spec (s : List Nat) :
    (∀ t, ChunkType.from_str s = .ok t ↔
      s.length = 4 ∧ (∀ b ∈ s, (65 ≤ b ∧ b ≤ 90) ∨ (97 ≤ b ∧ b ≤ 122)) ∧ t.bytes = s) ∧
    (¬(s.length = 4 ∧ ∀ b ∈ s, (65 ≤ b ∧ b ≤ 90) ∨ (97 ≤ b ∧ b ≤ 122)) →
      ChunkType.from_str s = .error ()) := by
  have hiff : ((s.length != 4 || !(s.all fun v => ChunkType.is_valid_byte v)) = false) ↔
      (s.length = 4 ∧ ∀ b ∈ s, (65 ≤ b ∧ b ≤ 90) ∨ (97 ≤ b ∧ b ≤ 122)) := by
    simp [List.all_eq_true, ChunkType.is_valid_byte]
  cases hc : (s.length != 4 || !(s.all fun v => ChunkType.is_valid_byte v)) with
  | true =>
    have hfs : ChunkType.from_str s = .error () := by
      rw [ChunkType.from_str, if_pos hc]
    have hrhs : ¬(s.length = 4 ∧ ∀ b ∈ s, (65 ≤ b ∧ b ≤ 90) ∨ (97 ≤ b ∧ b ≤ 122)) := by
      rw [← hiff, hc]; simp
    exact ⟨fun t => ⟨fun h => by simp [hfs] at h, fun h => absurd ⟨h.1, h.2.1⟩ hrhs⟩,
      fun _ => hfs⟩
  | false =>
    have hfs : ChunkType.from_str s = .ok ⟨s.getD 0 0, s.getD 1 0, s.getD 2 0, s.getD 3 0⟩ := by
      rw [ChunkType.from_str, if_neg (by simp [hc])]
    obtain ⟨h4, hletters⟩ := hiff.mp hc
    refine ⟨fun t => ⟨fun h => ?_, fun h => ?_⟩, fun h => absurd ⟨h4, hletters⟩ h⟩
    · rw [hfs] at h
      cases h
      exact ⟨h4, hletters, by simpa [ChunkType.bytes] using list_eq_of_length_four s h4⟩
    · obtain ⟨-, -, hb⟩ := h
      rw [hfs]
      rcases t with ⟨a, b, c, d⟩
      simp only [ChunkType.bytes] at hb
      subst hb
      rfl

/-- C8 witness: "RuSt" is accepted with its bytes stored; "Ru1t" (digit) and a
1-byte string are rejected. -/
theorem chunk_type_from_str_spec_witness :
    ChunkType.from_str [82, 117, 83, 116] = .ok ⟨82, 117, 83, 116⟩ ∧
    ChunkType.from_str [82, 117, 49, 116] = .error () ∧
    ChunkType.from_str [82] = .error () :=
  ⟨((chunk_type_from_str_spec [82, 117, 83, 116]).1 ⟨82, 117, 83, 116⟩).mpr
      ⟨by decide, by decide, by decide⟩,
   (chunk_type_from_str_spec [82, 117, 49, 116]).2 (by decide),
   (chunk_type_from_str_spec [82]).2 (by decide)⟩


set_option maxRecDepth 100000 in
/-- C5 counterexample: the scenario payload "This is where your secret
message will be!" is 42 bytes, not 44, and the constructed chunk's `length`
is 42, so the claimed `length == 44` is false. -/
theorem chunk_new_scenario_counterexample :
    secret_message.length = 42 ∧
    (Chunk.new ⟨82, 117, 83, 116⟩ secret_message).length = 42 ∧ (42 : Nat) ≠ 44 :=
  ⟨rfl, rfl, by decide⟩

set_option maxRecDepth 100000 in
/-- C5 amended: with type "RuSt" and that payload (42 bytes), `Chunk::new`
yields `length == 42` and `crc == 2882656334`. -/
theorem chunk_new_scenario :
    ChunkType.from_str [82, 117, 83, 116] = .ok ⟨82, 117, 83, 116⟩ ∧
    secret_message.length = 42 ∧
    (Chunk.new ⟨82, 117, 83, 116⟩ secret_message).length = 42 ∧
    (Chunk.new ⟨82, 117, 83, 116⟩ secret_message).crc = 2882656334 :=
  ⟨rfl, rfl, rfl, rfl⟩

/-- C2: the decode error cascade of `Chunk::try_from`: `LengthByteRead` for
buffers under 4 bytes; `ChunkTypeByteRead` for 4..7 bytes; `ChunkTypeError`
when the type bytes fail validation (checked before any data is read);
`DataByteRead` when fewer than `length` data bytes remain; `CrcByteRead` when
fewer than 4 CRC bytes remain after the data; `CrcMismatch` when the stored
CRC differs from the CRC recomputed over type‖data; and the six error kinds
are pairwise distinguishable. -/
lemma try_from_len_err {value : List Nat} (h : value.length < 4) :
    Chunk.try_from value = .error .lengthByteRead := by
  simp [Chunk.try_from, h]

lemma try_from_type_read_err {value : List Nat} (h4 : 4 ≤ value.length)
    (h8 : value.length < 8) : Chunk.try_from value = .error .chunkTypeByteRead := by
  simp [Chunk.try_from, h8, Nat.not_lt.mpr h4]

lemma try_from_type_err {value : List Nat} (h8 : 8 ≤ value.length)
    (hv : (chunk_type_field value).is_valid = false) :
    Chunk.try_from value = .error (.chunkTypeError ()) := by
  have hv' := hv
  simp only [chunk_type_field, List.getD_eq_getElem?_getD] at hv'
  simp [Chunk.try_from, ChunkType.try_from, hv', Nat.not_lt.mpr h8,
    Nat.not_lt.mpr (by omega : 4 ≤ value.length)]

lemma try_from_data_err {value : List Nat} (h8 : 8 ≤ value.length)
    (hv : (chunk_type_field value).is_valid = true)
    (hd : value.length < 8 + chunk_len_field value) :
    Chunk.try_from value = .error .dataByteRead := by
  have hv' := hv
  simp only [chunk_type_field, List.getD_eq_getElem?_getD] at hv'
  simp [Chunk.try_from, ChunkType.try_from, hv', hd, Nat.not_lt.mpr h8,
    Nat.not_lt.mpr (by omega : 4 ≤ value.length)]

lemma try_from_crc_read_err {value : List Nat}
    (hd : 8 + chunk_len_field value ≤ value.length)
    (hv : (chunk_type_field value).is_valid = true)
    (hc : value.length < 12 + chunk_len_field value) :
    Chunk.try_from value = .error .crcByteRead := by
  have hv' := hv
  simp only [chunk_type_field, List.getD_eq_getElem?_getD] at hv'
  simp [Chunk.try_from, ChunkType.try_from, hv', hc, Nat.not_lt.mpr hd,
    Nat.not_lt.mpr (by omega : 8 ≤ value.length),
    Nat.not_lt.mpr (by omega : 4 ≤ value.length)]

lemma try_from_crc_mismatch {value : List Nat}
    (hc : 12 + chunk_len_field value ≤ value.length)
    (hv : (chunk_type_field value).is_valid = true)
    (hne : chunk_computed_crc value ≠ chunk_stored_crc value) :
    Chunk.try_from value = .error .crcMismatch := by
  have hv' := hv
  simp only [chunk_type_field, List.getD_eq_getElem?_getD] at hv'
  simp [Chunk.try_from, ChunkType.try_from, hv', hne, Nat.not_lt.mpr hc,
    Nat.not_lt.mpr (by omega : 8 + chunk_len_field value ≤ value.length),
    Nat.not_lt.mpr (by omega : 8 ≤ value.length),
    Nat.not_lt.mpr (by omega : 4 ≤ value.length)]

lemma try_from_ok_char {value : List Nat}
    (hc : 12 + chunk_len_field value ≤ value.length)
    (hv : (chunk_type_field value).is_valid = true)
    (heq : chunk_computed_crc value = chunk_stored_crc value) :
    Chunk.try_from value = .ok ⟨chunk_len_field value, chunk_type_field value,
      (value.drop 8).take (chunk_len_field value), chunk_computed_crc value⟩ := by
  have hv' := hv
  simp only [chunk_type_field, List.getD_eq_getElem?_getD] at hv'
  simp [Chunk.try_from, ChunkType.try_from, chunk_type_field, hv', heq,
    Nat.not_lt.mpr hc,
    Nat.not_lt.mpr (by omega : 8 + chunk_len_field value ≤ value.length),
    Nat.not_lt.mpr (by omega : 8 ≤ value.length),
    Nat.not_lt.mpr (by omega : 4 ≤ value.length)]

lemma try_from_ok_inv {value : List Nat} {c : Chunk}
    (h : Chunk.try_from value = .ok c) :
    12 + chunk_len_field value ≤ value.length ∧
    (chunk_type_field value).is_valid = true ∧
    chunk_computed_crc value = chunk_stored_crc value ∧
    c = ⟨chunk_len_field value, chunk_type_field value,
      (value.drop 8).take (chunk_len_field value), chunk_computed_crc value⟩ := by
  by_cases h1 : value.length < 4
  · rw [try_from_len_err h1] at h; cases h
  by_cases h2 : value.length < 8
  · rw [try_from_type_read_err (by omega) h2] at h; cases h
  cases hv : (chunk_type_field value).is_valid with
  | false => rw [try_from_type_err (by omega) hv] at h; cases h
  | true =>
    by_cases hd : value.length < 8 + chunk_len_field value
    · rw [try_from_data_err (by omega) hv hd] at h; cases h
    by_cases hcr : value.length < 12 + chunk_len_field value
    · rw [try_from_crc_read_err (by omega) hv hcr] at h; cases h
    by_cases hne : chunk_computed_crc value = chunk_stored_crc value
    · rw [try_from_ok_char (by omega) hv hne] at h
      cases h
      exact ⟨by omega, rfl, hne, rfl⟩
    · rw [try_from_crc_mismatch (by omega) hv hne] at h; cases h

theorem chunk_try_from_error_taxonomy (value : List Nat) :
    (value.length < 4 → Chunk.try_from value = .error .lengthByteRead) ∧
    (4 ≤ value.length → value.length < 8 →
      Chunk.try_from value = .error .chunkTypeByteRead) ∧
    (8 ≤ value.length → (chunk_type_field value).is_valid = false →
      Chunk.try_from value = .error (.chunkTypeError ())) ∧
    (8 ≤ value.length → (chunk_type_field value).is_valid = true →
      value.length < 8 + chunk_len_field value →
      Chunk.try_from value = .error .dataByteRead) ∧
    (8 + chunk_len_field value ≤ value.length →
      (chunk_type_field value).is_valid = true →
      value.length < 12 + chunk_len_field value →
      Chunk.try_from value = .error .crcByteRead) ∧
    (12 + chunk_len_field value ≤ value.length →
      (chunk_type_field value).is_valid = true →
      chunk_computed_crc value ≠ chunk_stored_crc value →
      Chunk.try_from value = .error .crcMismatch) ∧
    ([ChunkError.lengthByteRead, .chunkTypeByteRead, .chunkTypeError (),
      .dataByteRead, .crcByteRead, .crcMismatch].Pairwise (· ≠ ·)) := by
  exact ⟨fun h => try_from_len_err h,
    fun h4 h8 => try_from_type_read_err h4 h8,
    fun h8 hv => try_from_type_err h8 hv,
    fun h8 hv hd => try_from_data_err h8 hv hd,
    fun hd hv hc => try_from_crc_read_err hd hv hc,
    fun hc hv hne => try_from_crc_mismatch hc hv hne,
    by decide⟩

/-- C2 witness: each error branch exercised on a concrete buffer through the
taxonomy theorem. -/
theorem chunk_try_from_error_taxonomy_witness :
    Chunk.try_from [] = .error .lengthByteRead ∧
    Chunk.try_from [0, 0, 0, 0] = .error .chunkTypeByteRead ∧
    Chunk.try_from [0, 0, 0, 0, 65, 65, 115, 65] = .error (.chunkTypeError ()) ∧
    Chunk.try_from [0, 0, 0, 1, 65, 65, 65, 65] = .error .dataByteRead ∧
    Chunk.try_from [0, 0, 0, 0, 65, 65, 65, 65] = .error .crcByteRead ∧
    Chunk.try_from [0, 0, 0, 0, 65, 65, 65, 65, 0, 0, 0, 0] = .error .crcMismatch :=
  ⟨(chunk_try_from_error_taxonomy []).1 (by decide),
   (chunk_try_from_error_taxonomy [0, 0, 0, 0]).2.1 (by decide) (by decide),
   (chunk_try_from_error_taxonomy [0, 0, 0, 0, 65, 65, 115, 65]).2.2.1
     (by decide) (by decide),
   (chunk_try_from_error_taxonomy [0, 0, 0, 1, 65, 65, 65, 65]).2.2.2.1
     (by decide) (by decide) (by decide),
   (chunk_try_from_error_taxonomy [0, 0, 0, 0, 65, 65, 65, 65]).2.2.2.2.1
     (by decide) (by decide) (by decide),
   (chunk_try_from_error_taxonomy [0, 0, 0, 0, 65, 65, 65, 65, 0, 0, 0, 0]).2.2.2.2.2.1
     (by decide) (by decide) (by decide)⟩


lemma crcStep_lt {s : Nat} (h : s < 2 ^ 32) : crcStep s < 2 ^ 32 := by
  rw [crcStep]
  split
  · exact Nat.xor_lt_two_pow (by omega) (by norm_num [CRC32_POLY])
  · omega

lemma crcByte_lt {s b : Nat} (hs : s < 2 ^ 32) (hb : b < 2 ^ 32) : crcByte s b < 2 ^ 32 := by
  rw [crcByte]
  exact crcStep_lt (crcStep_lt (crcStep_lt (crcStep_lt (crcStep_lt (crcStep_lt
    (crcStep_lt (crcStep_lt (Nat.xor_lt_two_pow hs hb))))))))

lemma crcLoop_lt {bs : List Nat} {s : Nat} (hs : s < 2 ^ 32)
    (hb : ∀ x ∈ bs, x < 2 ^ 32) : crcLoop s bs < 2 ^ 32 := by
  induction bs generalizing s with
  | nil => exact hs
  | cons b bs ih =>
    have hstep : crcLoop s (b :: bs) = crcLoop (crcByte s b) bs := rfl
    rw [hstep]
    exact ih (crcByte_lt hs (hb b (List.mem_cons_self b bs)))
      (fun x hx => hb x (List.mem_cons_of_mem b hx))

lemma crc32_lt {msg : List Nat} (hb : ∀ x ∈ msg, x < 2 ^ 32) : crc32 msg < 2 ^ 32 := by
  rw [crc32]
  exact Nat.xor_lt_two_pow (crcLoop_lt (by norm_num) hb) (by norm_num)

lemma u32_from_to {n : Nat} (h : n < 2 ^ 32) :
    u32_from_be_bytes (n / 2 ^ 24 % 256) (n / 2 ^ 16 % 256) (n / 2 ^ 8 % 256) (n % 256) = n := by
  simp only [u32_from_be_bytes]
  omega


set_option maxRecDepth 100000 in
/-- C1 counterexample: "Rust" is accepted by `ChunkType::from_str` (all ASCII
letters), but a chunk built by `Chunk::new` with it does NOT round-trip:
`Chunk::try_from` rejects the re-encoded bytes with `ChunkTypeError`, because
decoding re-validates the reserved bit. -/
theorem chunk_roundtrip_counterexample :
    ChunkType.from_str [82, 117, 115, 116] = .ok ⟨82, 117, 115, 116⟩ ∧
    Chunk.try_from (Chunk.new ⟨82, 117, 115, 116⟩ []).as_bytes =
      .error (.chunkTypeError ()) :=
  ⟨rfl, rfl⟩

lemma take_add_four {α : Type _} (a b c d : α) (l : List α) (n : Nat) :
    (a :: b :: c :: d :: l).take (4 + n) = a :: b :: c :: d :: l.take n := by
  rw [show 4 + n = n + 1 + 1 + 1 + 1 from by omega]
  simp only [List.take_succ_cons]

lemma getD_cons8 {α : Type _} (x0 x1 x2 x3 x4 x5 x6 x7 : α) (l : List α)
    (k : Nat) (d : α) :
    (x0 :: x1 :: x2 :: x3 :: x4 :: x5 :: x6 :: x7 :: l).getD (8 + k) d = l.getD k d := by
  rw [show 8 + k = k + 1 + 1 + 1 + 1 + 1 + 1 + 1 + 1 from by omega]
  simp only [List.getD_cons_succ]

/-- Decoding a buffer with the exact well-formed layout
`len-bytes ‖ type-bytes ‖ data ‖ crc-bytes` (valid type, matching CRC). -/
lemma try_from_build (x0 x1 x2 x3 b0 b1 b2 b3 : Nat) (data : List Nat) (C : Nat)
    (hx : u32_from_be_bytes x0 x1 x2 x3 = data.length)
    (hvld : (ChunkType.mk b0 b1 b2 b3).is_valid = true)
    (hC : C < 2 ^ 32)
    (hCval : crc32 (b0 :: b1 :: b2 :: b3 :: data) = C) :
    Chunk.try_from (x0 :: x1 :: x2 :: x3 :: b0 :: b1 :: b2 :: b3 ::
      (data ++ u32_to_be_bytes C)) =
      .ok ⟨data.length, ⟨b0, b1, b2, b3⟩, data, C⟩ := by
  have hfield : chunk_len_field (x0 :: x1 :: x2 :: x3 :: b0 :: b1 :: b2 :: b3 ::
      (data ++ u32_to_be_bytes C)) = data.length := hx
  have hlenv : (x0 :: x1 :: x2 :: x3 :: b0 :: b1 :: b2 :: b3 ::
      (data ++ u32_to_be_bytes C)).length = 12 + data.length := by
    simp [u32_to_be_bytes]
    omega
  have htype : chunk_type_field (x0 :: x1 :: x2 :: x3 :: b0 :: b1 :: b2 :: b3 ::
      (data ++ u32_to_be_bytes C)) = ⟨b0, b1, b2, b3⟩ := rfl
  have hdrop4 : (x0 :: x1 :: x2 :: x3 :: b0 :: b1 :: b2 :: b3 ::
      (data ++ u32_to_be_bytes C)).drop 4 = b0 :: b1 :: b2 :: b3 ::
      (data ++ u32_to_be_bytes C) := rfl
  have hdrop8 : (x0 :: x1 :: x2 :: x3 :: b0 :: b1 :: b2 :: b3 ::
      (data ++ u32_to_be_bytes C)).drop 8 = data ++ u32_to_be_bytes C := rfl
  have hcomp : chunk_computed_crc (x0 :: x1 :: x2 :: x3 :: b0 :: b1 :: b2 :: b3 ::
      (data ++ u32_to_be_bytes C)) = C := by
    rw [chunk_computed_crc, hfield, hdrop4, take_add_four, List.take_left' rfl, hCval]
  have hstored : chunk_stored_crc (x0 :: x1 :: x2 :: x3 :: b0 :: b1 :: b2 :: b3 ::
      (data ++ u32_to_be_bytes C)) = C := by
    rw [chunk_stored_crc, hfield,
      show 9 + data.length = 8 + (data.length + 1) from by omega,
      show 10 + data.length = 8 + (data.length + 2) from by omega,
      show 11 + data.length = 8 + (data.length + 3) from by omega,
      getD_cons8, getD_cons8, getD_cons8, getD_cons8,
      List.getD_append_right data _ 0 data.length (le_refl _),
      List.getD_append_right data _ 0 (data.length + 1) (by omega),
      List.getD_append_right data _ 0 (data.length + 2) (by omega),
      List.getD_append_right data _ 0 (data.length + 3) (by omega),
      show data.length - data.length = 0 from by omega,
      show data.length + 1 - data.length = 1 from by omega,
      show data.length + 2 - data.length = 2 from by omega,
      show data.length + 3 - data.length = 3 from by omega]
    show u32_from_be_bytes (C / 2 ^ 24 % 256) (C / 2 ^ 16 % 256)
        (C / 2 ^ 8 % 256) (C % 256) = C
    exact u32_from_to hC
  have hok := @try_from_ok_char
    (x0 :: x1 :: x2 :: x3 :: b0 :: b1 :: b2 :: b3 :: (data ++ u32_to_be_bytes C))
    (by rw [hfield, hlenv]) (by rw [htype]; exact hvld) (hcomp.trans hstored.symm)
  rw [hok, hfield, htype, hcomp, hdrop8, List.take_left' rfl]

/-- C1 amended: for every Chunk built via `new` from a ChunkType that passes
reserved-bit validation (with u8 byte fields) and a byte payload of fewer than
2^32 bytes, `Chunk::try_from (Chunk::as_bytes c)` succeeds and returns `c`
itself (same type, data, length, and recomputed CRC). -/
theorem chunk_roundtrip (t : ChunkType) (data : List Nat)
    (hv : t.is_valid = true) (ht : ∀ b ∈ t.bytes, b < 256)
    (hd : ∀ b ∈ data, b < 256) (hlen : data.length < 2 ^ 32) :
    Chunk.try_from (Chunk.new t data).as_bytes = .ok (Chunk.new t data) := by
  obtain ⟨b0, b1, b2, b3⟩ := t
  have hCb : ∀ x ∈ [b0, b1, b2, b3] ++ data, x < 2 ^ 32 := by
    intro x hx
    rcases List.mem_append.mp hx with hx | hx
    · have h0 := ht b0 (by simp [ChunkType.bytes])
      have h1 := ht b1 (by simp [ChunkType.bytes])
      have h2 := ht b2 (by simp [ChunkType.bytes])
      have h3 := ht b3 (by simp [ChunkType.bytes])
      simp at hx
      rcases hx with rfl | rfl | rfl | rfl <;> omega
    · have := hd x hx
      omega
  have hClt : crc32 ([b0, b1, b2, b3] ++ data) < 2 ^ 32 := crc32_lt hCb
  have hmod : data.length % 2 ^ 32 = data.length := Nat.mod_eq_of_lt hlen
  have hbuf : (Chunk.new ⟨b0, b1, b2, b3⟩ data).as_bytes =
      (data.length / 2 ^ 24 % 256) :: (data.length / 2 ^ 16 % 256) ::
      (data.length / 2 ^ 8 % 256) :: (data.length % 256) ::
      b0 :: b1 :: b2 :: b3 ::
      (data ++ u32_to_be_bytes (crc32 ([b0, b1, b2, b3] ++ data))) := by
    simp [Chunk.new, Chunk.as_bytes, u32_to_be_bytes, ChunkType.bytes, hmod]
    omega
  rw [hbuf]
  have hfin := try_from_build (data.length / 2 ^ 24 % 256) (data.length / 2 ^ 16 % 256)
    (data.length / 2 ^ 8 % 256) (data.length % 256) b0 b1 b2 b3 data
    (crc32 ([b0, b1, b2, b3] ++ data)) (u32_from_to hlen) hv hClt rfl
  rw [hfin]
  simp only [Chunk.new, hmod, List.cons_append, List.nil_append]

/-- C1 witness: the round-trip at a concrete valid chunk. -/
theorem chunk_roundtrip_witness :
    Chunk.try_from (Chunk.new ⟨82, 117, 83, 116⟩ [1, 2, 3]).as_bytes =
      .ok (Chunk.new ⟨82, 117, 83, 116⟩ [1, 2, 3]) :=
  chunk_roundtrip ⟨82, 117, 83, 116⟩ [1, 2, 3] (by decide) (by decide)
    (by decide) (by decide)


/-- The chunk invariant stated by the spec: the stored length is the byte
count of the data and the stored crc is the CRC-32/ISO-HDLC of the type
bytes concatenated with the data bytes. -/
def chunk_wf (c : Chunk) : Prop :=
  c.length = c.chunk_data.length ∧ c.crc = crc32 (c.chunk_type.bytes ++ c.chunk_data)

/-- C4 counterexample: `Chunk::new` stores `data.len() as u32`, so for a
payload of 2^32 bytes the stored length is 0, not the byte count of the
data: the invariant "stored length equals the byte count of its data" fails. -/
theorem chunk_invariant_counterexample :
    (Chunk.new ⟨65, 65, 65, 65⟩ (List.replicate (2 ^ 32) 0)).length = 0 ∧
    (Chunk.new ⟨65, 65, 65, 65⟩ (List.replicate (2 ^ 32) 0)).chunk_data.length = 2 ^ 32 ∧
    (Chunk.new ⟨65, 65, 65, 65⟩ (List.replicate (2 ^ 32) 0)).length ≠
      (Chunk.new ⟨65, 65, 65, 65⟩ (List.replicate (2 ^ 32) 0)).chunk_data.length := by
  have hgen : ∀ data : List Nat, data.length = 2 ^ 32 →
      (Chunk.new ⟨65, 65, 65, 65⟩ data).length = 0 ∧
      (Chunk.new ⟨65, 65, 65, 65⟩ data).chunk_data.length = 2 ^ 32 ∧
      (Chunk.new ⟨65, 65, 65, 65⟩ data).length ≠
        (Chunk.new ⟨65, 65, 65, 65⟩ data).chunk_data.length := by
    intro data h
    refine ⟨?_, ?_, ?_⟩ <;> simp [Chunk.new, h]
  exact hgen (List.replicate (2 ^ 32) 0) (List.length_replicate (2 ^ 32) 0)

/-- Splitting the CRC region `value[4..8+n]` into the 4 type bytes followed
by the first `n` data bytes. -/
lemma crc_region_split (value : List Nat) (n : Nat) (h : 8 ≤ value.length) :
    (value.drop 4).take (4 + n) =
      (chunk_type_field value).bytes ++ (value.drop 8).take n := by
  obtain _ | ⟨a0, value⟩ := value; · simp at h
  obtain _ | ⟨a1, value⟩ := value; · simp at h
  obtain _ | ⟨a2, value⟩ := value; · simp at h
  obtain _ | ⟨a3, value⟩ := value; · simp at h
  obtain _ | ⟨a4, value⟩ := value; · simp at h
  obtain _ | ⟨a5, value⟩ := value; · simp at h
  obtain _ | ⟨a6, value⟩ := value; · simp at h
  obtain _ | ⟨a7, value⟩ := value; · simp at h
  rw [show ((a0 :: a1 :: a2 :: a3 :: a4 :: a5 :: a6 :: a7 :: value).drop 4) =
      a4 :: a5 :: a6 :: a7 :: value from rfl, take_add_four]
  rfl

/-- C4 amended: every Chunk built by `Chunk::new` from a payload of fewer
than 2^32 bytes, and every Chunk produced by `Chunk::try_from`, satisfies the
invariant; moreover the crc of a freshly built chunk is always the recomputed
`crc32 (type bytes ++ data)`, never caller-supplied; and a buffer whose
stored CRC differs from the CRC recomputed over its type‖data region is
rejected: decode never returns such a buffer as `ok`, and when the decode
reaches the CRC comparison it fails with `CrcMismatch`. -/
theorem chunk_invariant (t : ChunkType) (data : List Nat) (value : List Nat)
    (c : Chunk) (hlen : data.length < 2 ^ 32)
    (hdec : Chunk.try_from value = .ok c) :
    chunk_wf (Chunk.new t data) ∧ chunk_wf c ∧
    (Chunk.new t data).crc = crc32 (t.bytes ++ data) ∧
    (∀ w : List Nat, chunk_computed_crc w ≠ chunk_stored_crc w →
      ∀ c2 : Chunk, Chunk.try_from w ≠ .ok c2) ∧
    (∀ w : List Nat, 12 + chunk_len_field w ≤ w.length →
      (chunk_type_field w).is_valid = true →
      chunk_computed_crc w ≠ chunk_stored_crc w →
      Chunk.try_from w = .error .crcMismatch) := by
  obtain ⟨hle, hvld, hcrceq, rfl⟩ := try_from_ok_inv hdec
  refine ⟨⟨?_, ?_⟩, ⟨?_, ?_⟩, ?_, ?_, ?_⟩
  · simp only [Chunk.new]
    omega
  · simp [Chunk.new, ChunkType.bytes]
  · simp only [List.length_take, List.length_drop]
    omega
  · show chunk_computed_crc value =
      crc32 ((chunk_type_field value).bytes ++ (value.drop 8).take (chunk_len_field value))
    rw [chunk_computed_crc, crc_region_split value (chunk_len_field value) (by omega)]
  · simp [Chunk.new, ChunkType.bytes]
  · exact fun w hne c2 hok => hne (try_from_ok_inv hok).2.2.1
  · exact fun w hc hv hne => try_from_crc_mismatch hc hv hne

/-- C4 witness: the invariant at a concrete fresh chunk and a concrete
decoded buffer, and the rejection of a concrete buffer whose stored CRC
(zero) disagrees with the recomputed one. -/
theorem chunk_invariant_witness :
    chunk_wf (Chunk.new ⟨82, 117, 83, 116⟩ [1, 2, 3]) ∧
    chunk_wf ⟨0, ⟨65, 65, 65, 65⟩, [], 2601322737⟩ ∧
    (Chunk.new ⟨82, 117, 83, 116⟩ [1, 2, 3]).crc =
      crc32 ((ChunkType.mk 82 117 83 116).bytes ++ [1, 2, 3]) ∧
    Chunk.try_from [0, 0, 0, 0, 65, 65, 65, 65, 0, 0, 0, 0] ≠
      .ok ⟨0, ⟨65, 65, 65, 65⟩, [], 0⟩ ∧
    Chunk.try_from [0, 0, 0, 0, 65, 65, 65, 65, 0, 0, 0, 0] =
      .error .crcMismatch := by
  have h := chunk_invariant ⟨82, 117, 83, 116⟩ [1, 2, 3]
    [0, 0, 0, 0, 65, 65, 65, 65, 155, 13, 8, 241]
    ⟨0, ⟨65, 65, 65, 65⟩, [], 2601322737⟩ (by decide) (by rfl)
  exact ⟨h.1, h.2.1, h.2.2.1,
    h.2.2.2.1 [0, 0, 0, 0, 65, 65, 65, 65, 0, 0, 0, 0] (by decide)
      ⟨0, ⟨65, 65, 65, 65⟩, [], 0⟩,
    h.2.2.2.2 [0, 0, 0, 0, 65, 65, 65, 65, 0, 0, 0, 0] (by decide) (by decide)
      (by decide)⟩


lemma is_valid_eq_not_testBit (t : ChunkType) : t.is_valid = !t.b2.testBit 5 := by
  simp only [ChunkType.is_valid, ChunkType.is_reserved_bit_valid]
  cases hb : t.b2.testBit 5
  · simpa using (and_32_eq_zero_iff t.b2).mpr hb
  · have hne : ¬ (t.b2 &&& 32 = 0) := by
      intro h0
      rw [(and_32_eq_zero_iff t.b2).mp h0] at hb
      cases hb
    simpa using hne

/-- C7 counterexample: a buffer whose type bytes are "01A2" — bytes 48 and
49 and 50 are NOT ASCII letters — decodes successfully, because the
byte-decoding path (`TryFrom<[u8; 4]>`) only checks the reserved bit, never
letter-ness; so "Chunk decode fails with the invalid-chunk-type error for
every non-letter type byte" is false. -/
theorem chunk_type_error_counterexample :
    ChunkType.is_valid_byte 48 = false ∧
    Chunk.try_from [0, 0, 0, 0, 48, 49, 65, 50, 213, 115, 135, 222] =
      .ok ⟨0, ⟨48, 49, 65, 50⟩, [], 3581118430⟩ :=
  ⟨rfl, rfl⟩

/-- C7 amended: for buffers of at least 8 bytes, `Chunk::try_from` fails with
the chunk-type error exactly when bit 5 of type byte 2 (buffer byte 6) is
set: the invalid-chunk-type error covers ONLY reserved-bit violations in the
byte-decoding path; non-letter type bytes are not rejected there. -/
theorem chunk_try_from_type_error_iff (value : List Nat) (h8 : 8 ≤ value.length) :
    Chunk.try_from value = .error (.chunkTypeError ()) ↔
      (value.getD 6 0).testBit 5 = true := by
  constructor
  · intro h
    cases hv : (chunk_type_field value).is_valid with
    | false =>
      have hb := is_valid_eq_not_testBit (chunk_type_field value)
      rw [hv] at hb
      have : (chunk_type_field value).b2.testBit 5 = true := by
        cases hbb : (chunk_type_field value).b2.testBit 5
        · rw [hbb] at hb; cases hb
        · rfl
      exact this
    | true =>
      exfalso
      by_cases hd : value.length < 8 + chunk_len_field value
      · rw [try_from_data_err h8 hv hd] at h; simp at h
      by_cases hcr : value.length < 12 + chunk_len_field value
      · rw [try_from_crc_read_err (by omega) hv hcr] at h; simp at h
      by_cases hne : chunk_computed_crc value = chunk_stored_crc value
      · rw [try_from_ok_char (by omega) hv hne] at h; simp at h
      · rw [try_from_crc_mismatch (by omega) hv hne] at h; simp at h
  · intro hbit
    apply try_from_type_err h8
    rw [is_valid_eq_not_testBit]
    have : (chunk_type_field value).b2 = value.getD 6 0 := rfl
    rw [this, hbit]
    rfl

/-- C7 witness: reserved-bit violation gives the chunk-type error; a
non-letter type with clear reserved bit does not. -/
theorem chunk_try_from_type_error_iff_witness :
    Chunk.try_from [0, 0, 0, 0, 65, 65, 115, 65] = .error (.chunkTypeError ()) ∧
    ¬ Chunk.try_from [0, 0, 0, 0, 48, 49, 65, 50] = .error (.chunkTypeError ()) :=
  ⟨(chunk_try_from_type_error_iff [0, 0, 0, 0, 65, 65, 115, 65] (by decide)).mpr
      (by decide),
   fun h => absurd
     ((chunk_try_from_type_error_iff [0, 0, 0, 0, 48, 49, 65, 50] (by decide)).mp h)
     (by decide)⟩

/-- C10: whenever `Chunk::try_from` reaches the CRC recomputation (its result
is `CrcByteRead`, `CrcMismatch`, or success — the three outcomes past the
data read), the earlier successful reads guarantee the buffer holds at least
`8 + length` bytes, so the slice `value[4..8+length]` is fully in bounds
(its length is exactly `4 + length`); the embedded decoder is total. -/
theorem chunk_try_from_crc_slice_in_bounds (value : List Nat)
    (h : Chunk.try_from value = .error .crcByteRead ∨
         Chunk.try_from value = .error .crcMismatch ∨
         ∃ c, Chunk.try_from value = .ok c) :
    8 + chunk_len_field value ≤ value.length ∧
    ((value.drop 4).take (4 + chunk_len_field value)).length =
      4 + chunk_len_field value := by
  have hb : 8 + chunk_len_field value ≤ value.length := by
    by_contra hlt
    push_neg at hlt
    by_cases h1 : value.length < 4
    · rw [try_from_len_err h1] at h
      rcases h with h | h | ⟨c, h⟩ <;> simp at h
    by_cases h2 : value.length < 8
    · rw [try_from_type_read_err (by omega) h2] at h
      rcases h with h | h | ⟨c, h⟩ <;> simp at h
    cases hv : (chunk_type_field value).is_valid with
    | false =>
      rw [try_from_type_err (by omega) hv] at h
      rcases h with h | h | ⟨c, h⟩ <;> simp at h
    | true =>
      rw [try_from_data_err (by omega) hv hlt] at h
      rcases h with h | h | ⟨c, h⟩ <;> simp at h
  refine ⟨hb, ?_⟩
  simp only [List.length_take, List.length_drop]
  omega

/-- C10 witness: the in-bounds property at a concrete buffer that stops at
the CRC byte read. -/
theorem chunk_try_from_crc_slice_in_bounds_witness :
    8 + chunk_len_field [0, 0, 0, 0, 65, 65, 65, 65] ≤
      ([0, 0, 0, 0, 65, 65, 65, 65] : List Nat).length ∧
    ((([0, 0, 0, 0, 65, 65, 65, 65] : List Nat).drop 4).take
        (4 + chunk_len_field [0, 0, 0, 0, 65, 65, 65, 65])).length =
      4 + chunk_len_field [0, 0, 0, 0, 65, 65, 65, 65] :=
  chunk_try_from_crc_slice_in_bounds [0, 0, 0, 0, 65, 65, 65, 65]
    (Or.inl (by rfl))


/-! ### CRC-32 single-byte sensitivity

The per-bit CRC step is injective on 32-bit states (the polynomial has its
top bit set, so the two parity branches cannot collide), hence two messages
of equal length that differ in exactly one byte have different checksums. -/

lemma xor_right_cancel {a b c : Nat} (h : a ^^^ c = b ^^^ c) : a = b := by
  have h2 := congrArg (fun x => x ^^^ c) h
  simpa [Nat.xor_cancel_right] using h2

lemma xor_left_cancel {a b c : Nat} (h : c ^^^ a = c ^^^ b) : a = b := by
  have h2 := congrArg (fun x => c ^^^ x) h
  simpa [← Nat.xor_assoc, Nat.xor_self, Nat.zero_xor] using h2

lemma crcStep_inj {s1 s2 : Nat} (h1 : s1 < 2 ^ 32) (h2 : s2 < 2 ^ 32)
    (h : crcStep s1 = crcStep s2) : s1 = s2 := by
  have hP : CRC32_POLY.testBit 31 = true := by decide
  rw [crcStep, crcStep] at h
  by_cases p1 : s1 % 2 = 1 <;> by_cases p2 : s2 % 2 = 1
  · rw [if_pos p1, if_pos p2] at h
    have hdiv := xor_right_cancel h
    omega
  · rw [if_pos p1, if_neg p2] at h
    exfalso
    have hlt1 : s1 / 2 < 2 ^ 31 := by omega
    have hlt2 : s2 / 2 < 2 ^ 31 := by omega
    have hbit : (s1 / 2 ^^^ CRC32_POLY).testBit 31 = true := by
      rw [Nat.testBit_xor, Nat.testBit_lt_two_pow hlt1, hP]
      rfl
    rw [h, Nat.testBit_lt_two_pow hlt2] at hbit
    cases hbit
  · rw [if_neg p1, if_pos p2] at h
    exfalso
    have hlt1 : s1 / 2 < 2 ^ 31 := by omega
    have hlt2 : s2 / 2 < 2 ^ 31 := by omega
    have hbit : (s2 / 2 ^^^ CRC32_POLY).testBit 31 = true := by
      rw [Nat.testBit_xor, Nat.testBit_lt_two_pow hlt2, hP]
      rfl
    rw [← h, Nat.testBit_lt_two_pow hlt1] at hbit
    cases hbit
  · rw [if_neg p1, if_neg p2] at h
    omega

lemma crcStep_ne {s1 s2 : Nat} (h1 : s1 < 2 ^ 32) (h2 : s2 < 2 ^ 32)
    (hne : s1 ≠ s2) : crcStep s1 ≠ crcStep s2 :=
  fun h => hne (crcStep_inj h1 h2 h)

lemma crcSteps8_ne {s1 s2 : Nat} (h1 : s1 < 2 ^ 32) (h2 : s2 < 2 ^ 32)
    (hne : s1 ≠ s2) :
    crcStep (crcStep (crcStep (crcStep (crcStep (crcStep (crcStep (crcStep s1))))))) ≠
    crcStep (crcStep (crcStep (crcStep (crcStep (crcStep (crcStep (crcStep s2))))))) := by
  have g1 := crcStep_ne h1 h2 hne
  have l1 := crcStep_lt h1
  have m1 := crcStep_lt h2
  have g2 := crcStep_ne l1 m1 g1
  have l2 := crcStep_lt l1
  have m2 := crcStep_lt m1
  have g3 := crcStep_ne l2 m2 g2
  have l3 := crcStep_lt l2
  have m3 := crcStep_lt m2
  have g4 := crcStep_ne l3 m3 g3
  have l4 := crcStep_lt l3
  have m4 := crcStep_lt m3
  have g5 := crcStep_ne l4 m4 g4
  have l5 := crcStep_lt l4
  have m5 := crcStep_lt m4
  have g6 := crcStep_ne l5 m5 g5
  have l6 := crcStep_lt l5
  have m6 := crcStep_lt m5
  have g7 := crcStep_ne l6 m6 g6
  have l7 := crcStep_lt l6
  have m7 := crcStep_lt m6
  exact crcStep_ne l7 m7 g7

lemma crcByte_ne {s1 s2 b : Nat} (h1 : s1 < 2 ^ 32) (h2 : s2 < 2 ^ 32)
    (hb : b < 2 ^ 32) (hne : s1 ≠ s2) : crcByte s1 b ≠ crcByte s2 b := by
  rw [crcByte, crcByte]
  exact crcSteps8_ne (Nat.xor_lt_two_pow h1 hb) (Nat.xor_lt_two_pow h2 hb)
    (fun h => hne (xor_right_cancel h))

lemma crcByte_diff {s b1 b2 : Nat} (hs : s < 2 ^ 32) (hb1 : b1 < 2 ^ 32)
    (hb2 : b2 < 2 ^ 32) (hne : b1 ≠ b2) : crcByte s b1 ≠ crcByte s b2 := by
  rw [crcByte, crcByte]
  exact crcSteps8_ne (Nat.xor_lt_two_pow hs hb1) (Nat.xor_lt_two_pow hs hb2)
    (fun h => hne (xor_left_cancel h))

lemma crcLoop_ne {bs : List Nat} {s1 s2 : Nat} (h1 : s1 < 2 ^ 32)
    (h2 : s2 < 2 ^ 32) (hb : ∀ x ∈ bs, x < 2 ^ 32) (hne : s1 ≠ s2) :
    crcLoop s1 bs ≠ crcLoop s2 bs := by
  induction bs generalizing s1 s2 with
  | nil => exact hne
  | cons b bs ih =>
    have hstep1 : crcLoop s1 (b :: bs) = crcLoop (crcByte s1 b) bs := rfl
    have hstep2 : crcLoop s2 (b :: bs) = crcLoop (crcByte s2 b) bs := rfl
    rw [hstep1, hstep2]
    have hbb := hb b (List.mem_cons_self b bs)
    exact ih (crcByte_lt h1 hbb) (crcByte_lt h2 hbb)
      (fun x hx => hb x (List.mem_cons_of_mem b hx))
      (crcByte_ne h1 h2 hbb hne)

lemma crcLoop_append (s : Nat) (l1 l2 : List Nat) :
    crcLoop s (l1 ++ l2) = crcLoop (crcLoop s l1) l2 := by
  induction l1 generalizing s with
  | nil => rfl
  | cons b l1 ih => exact ih (crcByte s b)

/-- Changing exactly one byte of a message changes its CRC-32. -/
lemma crc32_flip_ne (pre : List Nat) (b1 b2 : Nat) (suf : List Nat)
    (hpre : ∀ x ∈ pre, x < 2 ^ 32) (hb1 : b1 < 2 ^ 32) (hb2 : b2 < 2 ^ 32)
    (hsuf : ∀ x ∈ suf, x < 2 ^ 32) (hne : b1 ≠ b2) :
    crc32 (pre ++ b1 :: suf) ≠ crc32 (pre ++ b2 :: suf) := by
  rw [crc32, crc32]
  intro h
  have h2 := xor_right_cancel h
  rw [crcLoop_append, crcLoop_append] at h2
  have hS : crcLoop 0xFFFFFFFF pre < 2 ^ 32 := crcLoop_lt (by norm_num) hpre
  have hcons1 : crcLoop (crcLoop 0xFFFFFFFF pre) (b1 :: suf) =
      crcLoop (crcByte (crcLoop 0xFFFFFFFF pre) b1) suf := rfl
  have hcons2 : crcLoop (crcLoop 0xFFFFFFFF pre) (b2 :: suf) =
      crcLoop (crcByte (crcLoop 0xFFFFFFFF pre) b2) suf := rfl
  rw [hcons1, hcons2] at h2
  exact crcLoop_ne (crcByte_lt hS hb1) (crcByte_lt hS hb2) hsuf
    (crcByte_diff hS hb1 hb2 hne) h2


lemma drop_eq_getD_cons {l : List Nat} {n : Nat} (h : n < l.length) :
    l.drop n = l.getD n 0 :: l.drop (n + 1) := by
  rw [List.drop_eq_getElem_cons h, List.getD_eq_getElem l 0 h]

lemma getD_set_ne (l : List Nat) (i k : Nat) (a d : Nat) (h : i ≠ k) :
    (l.set i a).getD k d = l.getD k d := by
  simp [List.getD_eq_getElem?_getD, List.getElem?_set_ne h]

lemma getD_set_self (l : List Nat) (i : Nat) (a d : Nat) (h : i < l.length) :
    (l.set i a).getD i d = a := by
  simp [List.getD_eq_getElem?_getD, List.getElem?_set_self h]

/-- C3 counterexample: the 12-byte buffer for an empty "AAAA" chunk is
accepted; flipping bit 5 of buffer byte 6 — a single bit of the TYPE region,
stored CRC bytes untouched — makes decode fail with `ChunkTypeError`, not
`CrcMismatch`, because the reserved-bit check runs before the CRC check. -/
theorem chunk_crc_bit_flip_counterexample :
    Chunk.try_from [0, 0, 0, 0, 65, 65, 65, 65, 155, 13, 8, 241] =
      .ok ⟨0, ⟨65, 65, 65, 65⟩, [], 2601322737⟩ ∧
    flip_bit_at [0, 0, 0, 0, 65, 65, 65, 65, 155, 13, 8, 241] 6 5 =
      [0, 0, 0, 0, 65, 65, 97, 65, 155, 13, 8, 241] ∧
    Chunk.try_from [0, 0, 0, 0, 65, 65, 97, 65, 155, 13, 8, 241] =
      .error (.chunkTypeError ()) :=
  ⟨rfl, rfl, rfl⟩

/-- C3 amended: for every buffer accepted by `Chunk::try_from`, flipping any
single bit of the type or data region (byte index `4 ≤ i < 8 + length`, bit
`j < 8`) other than the reserved bit of the type (byte 6, bit 5), while
leaving the stored CRC bytes unchanged, makes decode fail with `CrcMismatch`;
flipping byte 6 bit 5 instead fails with `ChunkTypeError`. -/
theorem chunk_crc_bit_flip (value : List Nat) (c : Chunk) (i j : Nat)
    (hdec : Chunk.try_from value = .ok c)
    (hbytes : ∀ b ∈ value, b < 256)
    (hi4 : 4 ≤ i) (hi : i < 8 + chunk_len_field value) (hj : j < 8)
    (hnot : ¬ (i = 6 ∧ j = 5)) :
    Chunk.try_from (flip_bit_at value i j) = .error .crcMismatch := by
  obtain ⟨hle, hvld, hcrceq, -⟩ := try_from_ok_inv hdec
  have hilt : i < value.length := by omega
  rw [flip_bit_at]
  have hseteq : ∀ k d, i ≠ k →
      (value.set i (value.getD i 0 ^^^ 2 ^ j)).getD k d = value.getD k d :=
    fun k d hk => getD_set_ne value i k _ d hk
  have hlen' : (value.set i (value.getD i 0 ^^^ 2 ^ j)).length = value.length :=
    List.length_set value i _
  have hfield' : chunk_len_field (value.set i (value.getD i 0 ^^^ 2 ^ j)) =
      chunk_len_field value := by
    rw [chunk_len_field, chunk_len_field, hseteq 0 0 (by omega),
      hseteq 1 0 (by omega), hseteq 2 0 (by omega), hseteq 3 0 (by omega)]
  have hb2 : (chunk_type_field (value.set i (value.getD i 0 ^^^ 2 ^ j))).b2.testBit 5 =
      (chunk_type_field value).b2.testBit 5 := by
    by_cases h6 : i = 6
    · subst h6
      have hj5 : j ≠ 5 := fun h5 => hnot ⟨rfl, h5⟩
      have hset : (chunk_type_field (value.set 6 (value.getD 6 0 ^^^ 2 ^ j))).b2 =
          value.getD 6 0 ^^^ 2 ^ j := by
        show (value.set 6 (value.getD 6 0 ^^^ 2 ^ j)).getD 6 0 = _
        exact getD_set_self value 6 _ 0 (by omega)
      rw [hset]
      show (value.getD 6 0 ^^^ 2 ^ j).testBit 5 = (value.getD 6 0).testBit 5
      rw [Nat.testBit_xor, Nat.testBit_two_pow]
      simp [hj5]
    · show ((value.set i (value.getD i 0 ^^^ 2 ^ j)).getD 6 0).testBit 5 =
        ((value.getD 6 0)).testBit 5
      rw [hseteq 6 0 h6]
  have hvld' : (chunk_type_field (value.set i (value.getD i 0 ^^^ 2 ^ j))).is_valid
      = true := by
    rw [is_valid_eq_not_testBit, hb2, ← is_valid_eq_not_testBit]
    exact hvld
  have hstored' : chunk_stored_crc (value.set i (value.getD i 0 ^^^ 2 ^ j)) =
      chunk_stored_crc value := by
    rw [chunk_stored_crc, chunk_stored_crc, hfield',
      hseteq (8 + chunk_len_field value) 0 (by omega),
      hseteq (9 + chunk_len_field value) 0 (by omega),
      hseteq (10 + chunk_len_field value) 0 (by omega),
      hseteq (11 + chunk_len_field value) 0 (by omega)]
  have hreg' : ((value.set i (value.getD i 0 ^^^ 2 ^ j)).drop 4).take
        (4 + chunk_len_field value) =
      ((value.drop 4).take (4 + chunk_len_field value)).set (i - 4)
        (value.getD i 0 ^^^ 2 ^ j) := by
    rw [List.drop_set, if_neg (by omega), List.set_take]
  have hreglen : ((value.drop 4).take (4 + chunk_len_field value)).length =
      4 + chunk_len_field value := by
    simp only [List.length_take, List.length_drop]
    omega
  have hklen : i - 4 < ((value.drop 4).take (4 + chunk_len_field value)).length := by
    rw [hreglen]
    omega
  have holdb : ((value.drop 4).take (4 + chunk_len_field value)).getD (i - 4) 0 =
      value.getD i 0 := by
    rw [List.getD_eq_getElem?_getD, List.getElem?_take, if_pos (by omega),
      List.getElem?_drop, List.getD_eq_getElem?_getD,
      show 4 + (i - 4) = i from by omega]
  have hdecomp : (value.drop 4).take (4 + chunk_len_field value) =
      ((value.drop 4).take (4 + chunk_len_field value)).take (i - 4) ++
        value.getD i 0 ::
        ((value.drop 4).take (4 + chunk_len_field value)).drop (i - 4 + 1) := by
    conv_lhs => rw [← List.take_append_drop (i - 4)
      ((value.drop 4).take (4 + chunk_len_field value))]
    rw [drop_eq_getD_cons hklen, holdb]
  have hsetdecomp : ((value.drop 4).take (4 + chunk_len_field value)).set (i - 4)
        (value.getD i 0 ^^^ 2 ^ j) =
      ((value.drop 4).take (4 + chunk_len_field value)).take (i - 4) ++
        (value.getD i 0 ^^^ 2 ^ j) ::
        ((value.drop 4).take (4 + chunk_len_field value)).drop (i - 4 + 1) := by
    rw [List.set_eq_take_append_cons_drop, if_pos hklen]
  have hmemreg : ∀ x ∈ (value.drop 4).take (4 + chunk_len_field value), x < 2 ^ 32 := by
    intro x hx
    have := hbytes x (List.mem_of_mem_drop (List.mem_of_mem_take hx))
    omega
  have holdlt : value.getD i 0 < 2 ^ 32 := by
    have hmem : value.getD i 0 ∈ value := by
      rw [List.getD_eq_getElem _ 0 hilt]
      exact List.getElem_mem hilt
    have := hbytes _ hmem
    omega
  have hpj : (2 : Nat) ^ j < 2 ^ 32 := Nat.pow_lt_pow_right (by omega) (by omega)
  have hflt : value.getD i 0 ^^^ 2 ^ j < 2 ^ 32 := Nat.xor_lt_two_pow holdlt hpj
  have hbne : value.getD i 0 ^^^ 2 ^ j ≠ value.getD i 0 := by
    intro h
    have h0 : value.getD i 0 ^^^ 2 ^ j = value.getD i 0 ^^^ 0 := by
      rw [Nat.xor_zero]
      exact h
    have hz := xor_left_cancel h0
    have hpow : 0 < 2 ^ j := Nat.pos_pow_of_pos j (by omega)
    omega
  have hcompne : crc32 (((value.drop 4).take (4 + chunk_len_field value)).set (i - 4)
        (value.getD i 0 ^^^ 2 ^ j)) ≠
      crc32 ((value.drop 4).take (4 + chunk_len_field value)) := by
    rw [hsetdecomp]
    conv_rhs => rw [hdecomp]
    exact crc32_flip_ne _ _ _ _
      (fun x hx => hmemreg x (List.mem_of_mem_take hx)) hflt holdlt
      (fun x hx => hmemreg x (List.mem_of_mem_drop hx)) hbne
  apply try_from_crc_mismatch
  · rw [hfield', hlen']
    omega
  · exact hvld'
  · rw [chunk_computed_crc, hfield', hreg', hstored', ← hcrceq, chunk_computed_crc]
    exact hcompne

set_option maxRecDepth 100000 in
/-- C3 witness: a concrete accepted chunk buffer (type "AAAA", one data
byte); flipping bit 0 of the data byte (buffer byte 8) yields `CrcMismatch`
through the amended theorem. -/
theorem chunk_crc_bit_flip_witness :
    Chunk.try_from (flip_bit_at ([0, 0, 0, 1, 65, 65, 65, 65, 7] ++
      u32_to_be_bytes (crc32 [65, 65, 65, 65, 7])) 8 0) = .error .crcMismatch :=
  chunk_crc_bit_flip ([0, 0, 0, 1, 65, 65, 65, 65, 7] ++
      u32_to_be_bytes (crc32 [65, 65, 65, 65, 7]))
    ⟨1, ⟨65, 65, 65, 65⟩, [7], crc32 [65, 65, 65, 65, 7]⟩ 8 0
    (by rfl) (by decide) (by decide) (by decide) (by decide) (by decide)

end Pngme
